import Mathlib

/-
Verification of the logwatch-ai repository's behavioral specification
against a shallow Lean embedding of its source.

Components embedded (from the JavaScript source):
  - ClaudeClient.validateAnalysis / parseAnalysisResponse  (src/telegram-client.js, second module)
  - TelegramClient.splitMessage / sendSplitMessage          (src/telegram-client.js, first module)
  - the two-channel sendAnalysisReport                      (modelled from the spec, see below)
  - Storage.cleanup                                         (src/storage.js, src/analyzer.js sql.js variant)
  - LogwatchPreprocessor                                    (src/utils/preprocessor.js)
  - Config MAX_LOG_SIZE_MB resolution and validation        (config/config.js)
  - Logger.write / rotateIfNeeded                           (src/storage.js, second module)
  - LogwatchReader.isFileRecent                             (logwatch-reader module)

Modelling conventions: JavaScript strings are Lean Strings (ASCII payloads);
JS numbers are Nat/Int with the exact integer semantics of the source noted
at each definition; JS Date arithmetic is modelled as Unix-epoch arithmetic
with fixed 86400-second days; fallible operations return Option/Except.
-/

namespace LogwatchAI

/-! ## JSON values

JavaScript values as produced by `JSON.parse`: objects are association lists
of fields (JSON.parse collapses duplicate keys, so field lists are maps). -/

inductive Json where
  | null
  | bool (b : Bool)
  | num (n : Int)
  | str (s : String)
  | arr (xs : List Json)
  | obj (fields : List (String × Json))

/-- JS property read `a[key]` on a parsed object; absent keys are only read
after an `in` check in the embedded code, so the default branch is unreachable
there (we return `Json.null` for it). -/
def getField : List (String × Json) → String → Json
  | [], _ => Json.null
  | (k, v) :: rest, key => if k = key then v else getField rest key

/-- JS `key in a` membership test on a parsed object. -/
def hasField (a : List (String × Json)) (key : String) : Bool :=
  a.any (fun p => p.1 == key)

/-- JS property write `a[key] = v` on a parsed object (key known present). -/
def setField : List (String × Json) → String → Json → List (String × Json)
  | [], _, _ => []
  | (k, v) :: rest, key, newV =>
    if k = key then (k, newV) :: setField rest key newV
    else (k, v) :: setField rest key newV

/-- JS `typeof` on a parsed JSON value. Note `typeof null` and
`typeof anArray` are both the string "object". -/
def jsTypeof : Json → String
  | Json.null => "object"
  | Json.bool _ => "boolean"
  | Json.num _ => "number"
  | Json.str _ => "string"
  | Json.arr _ => "object"
  | Json.obj _ => "object"

/-- JS `Array.isArray`. -/
def isArrayJS : Json → Bool
  | Json.arr _ => true
  | _ => false

/-! ## ClaudeClient.validateAnalysis / parseAnalysisResponse
(src/telegram-client.js lines 378-445 of the claude-client module) -/

/-- The five valid system statuses (`validStatuses` in the source). -/
def validStatuses : List String :=
  ["Excellent", "Good", "Satisfactory", "Bad", "Awful"]

/-- `validStatuses.includes(analysis.systemStatus)`: string membership;
false for any non-string value. -/
def statusIsValid (a : List (String × Json)) : Bool :=
  match getField a ("systemStatus") with
  | Json.str s => validStatuses.contains s
  | _ => false

/-- The `systemStatus` coercion of `validateAnalysis`: an invalid value is
overwritten with "Satisfactory" (the source also logs a warning). -/
def coerceStatus (a : List (String × Json)) : List (String × Json) :=
  if statusIsValid a then a else setField a ("systemStatus") (Json.str "Satisfactory")

/-- `ClaudeClient.validateAnalysis`. The source loops over the array
`required` in order and throws on the first absent field (the loop is
unrolled here in the source's order); then coerces an invalid `systemStatus`
to "Satisfactory"; then checks the three list fields with `Array.isArray`
and `metrics` with `typeof`. -/
def validateAnalysis (a : List (String × Json)) :
    Except String (List (String × Json)) :=
  if ¬ hasField a ("systemStatus") then Except.error "Missing required field: systemStatus"
  else if ¬ hasField a ("summary") then Except.error "Missing required field: summary"
  else if ¬ hasField a ("criticalIssues") then Except.error "Missing required field: criticalIssues"
  else if ¬ hasField a ("warnings") then Except.error "Missing required field: warnings"
  else if ¬ hasField a ("recommendations") then Except.error "Missing required field: recommendations"
  else if ¬ hasField a ("metrics") then Except.error "Missing required field: metrics"
  else if ¬ isArrayJS (getField (coerceStatus a) ("criticalIssues")) then Except.error "criticalIssues must be an array"
  else if ¬ isArrayJS (getField (coerceStatus a) ("warnings")) then Except.error "warnings must be an array"
  else if ¬ isArrayJS (getField (coerceStatus a) ("recommendations")) then Except.error "recommendations must be an array"
  else if jsTypeof (getField (coerceStatus a) ("metrics")) ≠ "object" then Except.error "metrics must be an object"
  else Except.ok (coerceStatus a)

/-- The fixed fallback Analysis Result returned when parsing fails. -/
def fallbackAnalysis : List (String × Json) :=
  [("systemStatus", Json.str "Satisfactory"),
   ("summary", Json.str "Failed to parse AI response. Manual review required."),
   ("criticalIssues", Json.arr [Json.str "AI response parsing failed"]),
   ("warnings", Json.arr []),
   ("recommendations", Json.arr [Json.str "Review raw logwatch output manually"]),
   ("metrics", Json.obj [])]

/-- `ClaudeClient.parseAnalysisResponse`. The argument models the combined
outcome of the regex extraction of the first brace-delimited substring and
`JSON.parse` of it: `none` when either step throws, `some fields` for the
fields of the decoded object (a successful parse of a brace-delimited
candidate is always an object). Any exception from extraction, decoding or
`validateAnalysis` is caught and the fixed fallback object is returned;
the function never propagates an error. -/
def parseAnalysisResponse : Option (List (String × Json)) → List (String × Json)
  | none => fallbackAnalysis
  | some a =>
    match validateAnalysis a with
    | Except.ok validated => validated
    | Except.error _ => fallbackAnalysis

/-! ## TelegramClient message splitting
(src/telegram-client.js lines 210-256) -/

/-- Loop body of `TelegramClient.splitMessage`: the source iterates over
`message.split('\n')` accumulating `currentPart`; when
`currentPart.length + line.length + 1 > this.maxMessageLength - 50` the
nonempty accumulator is pushed and reset (`if (currentPart)`), and in every
iteration `currentPart += line + '\n'`; a final nonempty accumulator is
pushed after the loop. -/
def splitMessageAux (maxLen : Nat) : List String → String → List String
  | [], cur => if cur = "" then [] else [cur]
  | line :: rest, cur =>
    if cur.length + line.length + 1 > maxLen - 50 then
      (if cur = "" then [] else [cur]) ++ splitMessageAux maxLen rest (line ++ "\n")
    else
      splitMessageAux maxLen rest (cur ++ (line ++ "\n"))

/-- `TelegramClient.splitMessage`, taking the message's lines (the result of
the source's `message.split('\n')`; elements therefore contain no newline). -/
def splitMessage (maxLen : Nat) (lines : List String) : List String :=
  splitMessageAux maxLen lines ""

/-- The message whose `split('\n')` is the given line list (inverse of the
split performed by the source). -/
def composedMessage (lines : List String) : String :=
  match lines with
  | [] => ""
  | [l] => l
  | l :: rest => l ++ "\n" ++ composedMessage rest

/-- `TelegramClient.sendSplitMessage`: each part `i` (0-based) is sent as
`[Part i+1/N]\n\n` followed by the chunk. -/
def sendSplitMessage (maxLen : Nat) (lines : List String) : List String :=
  let parts := splitMessage maxLen lines
  (List.range parts.length).map
    (fun i => "[Part " ++ toString (i + 1) ++ "/" ++ toString parts.length ++ "]\n\n" ++ parts.getD i (""))

/-- Modelled from the spec: the repository's current two-channel
`TelegramClient.sendAnalysisReport` (the archive/alerts variant) is not under
src — the file there is the superseded single-channel variant (it reads
`config.telegram.chatId`, a key config/config.js does not define), while
config/config.js declares `archiveChannelId`/`alertsChannelId` and the
self-test script exercises both channels. Spec 4.8: "Always formats and sends
the full report to the archive channel. If an alerts channel identifier is
configured AND systemStatus is one of Satisfactory, Bad, Awful, ALSO sends
the identical formatted message to the alerts channel." Result: the list of
(channel id, message text) sends, in order. -/
def sendAnalysisReport (archiveChannelId : String) (alertsChannelId : Option String)
    (systemStatus : String) (message : String) : List (String × String) :=
  [(archiveChannelId, message)] ++
    (match alertsChannelId with
     | some alertsId =>
       if systemStatus = "Satisfactory" ∨ systemStatus = "Bad" ∨ systemStatus = "Awful" then
         [(alertsId, message)]
       else []
     | none => [])

/-! ## Storage.cleanup
(src/storage.js lines 220-249, better-sqlite3 backend; src/analyzer.js
lines 446-483, sql.js backend — both compute the same cutoff and delete
`WHERE timestamp < cutoff`; the deleted count is `result.changes` in one and
`countBefore - countAfter` in the other, both the number of deleted rows). -/

structure SummaryRow where
  timestamp : Int
  summary : String
deriving DecidableEq, Repr

/-- `Storage.cleanup`. `now` is the current Unix epoch time in seconds; the
source computes the cutoff with `cutoffDate.setDate(getDate() - days)` and
`Math.floor(getTime()/1000)`, i.e. `days` calendar days before now, modelled
as `days * 86400` seconds. Returns the retained rows and the deleted count;
when the database is disabled it is a no-op returning 0. -/
def cleanup (enabled : Bool) (rows : List SummaryRow) (now : Int)
    (days : Int := 90) : List SummaryRow × Nat :=
  if ¬ enabled then (rows, 0)
  else
    let cutoffTimestamp := now - days * 86400
    let kept := rows.filter (fun r => ¬ (r.timestamp < cutoffTimestamp))
    (kept, rows.length - kept.length)

/-! ## LogwatchPreprocessor
(src/utils/preprocessor.js)

JS regular-expression tests are modelled directly on character lists;
all regexes involved are case-insensitive prefix/substring patterns over
ASCII text, modelled pattern by pattern below. -/

/-- JS whitespace class `\s` (ASCII members; the source's digests are ASCII). -/
def jsIsSpace (c : Char) : Bool :=
  c = ' ' ∨ c = '\t' ∨ c = '\n' ∨ c = '\r' ∨ c.toNat = 11 ∨ c.toNat = 12

/-- JS `String.prototype.trim` (whitespace stripped from both ends). -/
def jsTrim (s : String) : String :=
  String.mk (((s.data.dropWhile jsIsSpace).reverse.dropWhile jsIsSpace).reverse)

/-- Number of maximal whitespace runs in a character list (state: currently
inside a run). -/
def wsRunsAux : List Char → Bool → Nat
  | [], _ => 0
  | c :: rest, inRun =>
    if jsIsSpace c then
      if inRun then wsRunsAux rest true else 1 + wsRunsAux rest true
    else wsRunsAux rest false

/-- `text.split(/\s+/).length` for nonempty text: one more than the number of
maximal whitespace runs (JS keeps the empty fields at either end). -/
def jsWordCount (s : String) : Nat :=
  wsRunsAux s.data false + 1

/-- `LogwatchPreprocessor.estimateTokens`:
`max(Math.ceil(words / 0.75), Math.ceil(chars / 4))` with an early 0 for the
empty string. `Math.ceil(words / 0.75)` equals `ceil(4 * words / 3)` (the
float quotient is within 2^-50 of the rational one, which is never that close
to a different integer), and `Math.ceil(chars / 4)` is exact. -/
def estimateTokens (text : String) : Nat :=
  if text = "" then 0
  else
    let words := jsWordCount text
    let chars := text.length
    max ((4 * words + 2) / 3) ((chars + 3) / 4)

/-- One parsed logwatch section (the object literals built by
`parseSections`). -/
structure Section where
  name : String
  priority : Nat
  header : String
  content : String
  lines : List String
deriving DecidableEq, Repr

/-- Case-insensitive literal prefix test on a character list. -/
def lowerStartsWith (cs : List Char) (kw : String) : Bool :=
  (cs.take kw.length).map Char.toLower == kw.data

/-- Regex prefix `^-+\s*`: one or more dashes then optional whitespace;
returns the remaining characters, or `none` if the line has no leading dash. -/
def dropDashesThenWs (cs : List Char) : Option (List Char) :=
  match cs with
  | '-' :: _ => some ((cs.dropWhile (fun c => c = '-')).dropWhile jsIsSpace)
  | _ => none

/-- Tail of the `ssh` pattern after `sshd?`: `\s+(begin|end|-)` —
at least one whitespace character then one of the three alternatives. -/
def sshTail (cs : List Char) : Bool :=
  match cs with
  | c :: _ =>
    jsIsSpace c ∧
      (lowerStartsWith (cs.dropWhile jsIsSpace) ("begin") ∨
       lowerStartsWith (cs.dropWhile jsIsSpace) ("end") ∨
       lowerStartsWith (cs.dropWhile jsIsSpace) ("-"))
  | [] => false

/-- `/^-+\s*sshd?\s+(begin|end|-)/i` applied after `^-+\s*`: `ssh`, an
optional `d` (greedy with backtracking), then `sshTail`. -/
def sshMatch (cs : List Char) : Bool :=
  lowerStartsWith cs ("ssh") &&
    (match cs.drop 3 with
     | c :: t => if c.toLower = 'd' then (sshTail t || sshTail (c :: t)) else sshTail (c :: t)
     | [] => false)

/-- `/^-+\s*disk\s*space/i` applied after `^-+\s*`. -/
def diskSpaceMatch (cs : List Char) : Bool :=
  lowerStartsWith cs ("disk") ∧ lowerStartsWith ((cs.drop 4).dropWhile jsIsSpace) ("space")

/-- Generic delimiter check: `/^-{3,}/.test(line.trim()) || /^={3,}/.test(line.trim())`. -/
def genericDelimiter (line : String) : Bool :=
  let t := (jsTrim line).data
  ((t.take 3).all (fun c => c = '-') ∧ t.length ≥ 3) ∨
    ((t.take 3).all (fun c => c = '=') ∧ t.length ≥ 3)

/-- `LogwatchPreprocessor.identifySection`: the `SECTION_PATTERNS` catalog is
tried in insertion order (all share the `^-+\s*` prefix), then the generic
delimiter fallback at LOW priority under name "unknown". -/
def identifySection (line : String) : Option (String × Nat) :=
  let named : Option (String × Nat) :=
    match dropDashesThenWs line.data with
    | none => none
    | some cs =>
      if sshMatch cs then some ("ssh", 3)
      else if lowerStartsWith cs ("authentication") ∨ lowerStartsWith cs ("pam_unix") ∨
          lowerStartsWith cs ("auth") then some ("auth", 3)
      else if lowerStartsWith cs ("sudo") then some ("sudo", 3)
      else if lowerStartsWith cs ("fail2ban") then some ("fail2ban", 3)
      else if lowerStartsWith cs ("security") then some ("security", 3)
      else if lowerStartsWith cs ("errors") then some ("error", 3)
      else if lowerStartsWith cs ("kernel") then some ("kernel", 3)
      else if diskSpaceMatch cs then some ("disk_full", 3)
      else if lowerStartsWith cs ("firewall") ∨ lowerStartsWith cs ("iptables") then
        some ("firewall", 2)
      else if lowerStartsWith cs ("network") then some ("network", 2)
      else if lowerStartsWith cs ("connections") then some ("connections", 2)
      else if lowerStartsWith cs ("disk") then some ("disk", 2)
      else if lowerStartsWith cs ("filesystem") then some ("filesystem", 2)
      else if lowerStartsWith cs ("cron") then some ("cron", 1)
      else if lowerStartsWith cs ("http") ∨ lowerStartsWith cs ("apache") ∨
          lowerStartsWith cs ("nginx") then some ("http", 1)
      else if lowerStartsWith cs ("mail") then some ("mail", 1)
      else if lowerStartsWith cs ("postfix") then some ("postfix", 1)
      else if lowerStartsWith cs ("init") ∨ lowerStartsWith cs ("systemd") then some ("init", 1)
      else none
  match named with
  | some info => some info
  | none => if genericDelimiter line then some ("unknown", 1) else none

/-- `content.split('\n')` on character lists. -/
def splitOnChar (c : Char) : List Char → List (List Char)
  | [] => [[]]
  | x :: rest =>
    let r := splitOnChar c rest
    if x = c then [] :: r
    else
      match r with
      | h :: t => (x :: h) :: t
      | [] => [[x]]

/-- `Array.prototype.join(sep)`. -/
def joinWith (sep : String) : List String → String
  | [] => ""
  | [x] => x
  | x :: xs => x ++ sep ++ joinWith sep xs

/-- The section object started at a recognized header line. -/
def mkNamedSection (name : String) (priority : Nat) (line : String) : Section :=
  { name := name, priority := priority, header := line,
    content := line ++ "\n", lines := [line] }

/-- Appending a content line to the open section. -/
def appendLineToSection (s : Section) (line : String) : Section :=
  { s with content := s.content ++ line ++ "\n", lines := s.lines ++ [line] }

/-- Loop of `LogwatchPreprocessor.parseSections`. The source pushes the
preamble object into `sections` at creation AND pushes `currentSection` again
when the next header arrives, so a preamble followed by a named section
appears twice (object aliasing makes both entries the fully accumulated
section); the final `!sections.includes(currentSection)` check skips the
closing push only for a never-closed preamble. The boolean on the open
section records that it is the preamble. -/
def parseSectionsGo : List String → Option (Section × Bool) → List Section
  | [], cur =>
    match cur with
    | none => []
    | some (s, _) => [s]
  | line :: rest, cur =>
    match identifySection line with
    | some info =>
      let started := mkNamedSection info.1 info.2 line
      match cur with
      | none => parseSectionsGo rest (some (started, false))
      | some (s, isPre) =>
        (if isPre then [s, s] else [s]) ++ parseSectionsGo rest (some (started, false))
    | none =>
      match cur with
      | some (s, isPre) => parseSectionsGo rest (some (appendLineToSection s line, isPre))
      | none =>
        parseSectionsGo rest
          (some ({ name := "preamble", priority := 2, header := "",
                   content := line ++ "\n", lines := [line] }, true))

/-- `LogwatchPreprocessor.parseSections`. -/
def parseSections (content : String) : List Section :=
  parseSectionsGo ((splitOnChar '\n' content.data).map String.mk) none

/-- Character class `[\d.]` of the dedup capture groups. -/
def isIpChar (c : Char) : Bool :=
  c.isDigit ∨ c = '.'

/-- Literal (non-regex) prefix test on character lists. -/
def startsWithList : List Char → List Char → Bool
  | _, [] => true
  | [], _ :: _ => false
  | c :: cs, p :: ps => c = p ∧ startsWithList cs ps

/-- Split a character list on a nonempty literal pattern (leftmost,
non-overlapping occurrences), like `String.prototype.split` on a string. -/
def splitOnSubstr (pat : List Char) : List Char → List (List Char)
  | [] => [[]]
  | c :: rest =>
    if h : startsWithList (c :: rest) pat ∧ pat ≠ [] then
      [] :: splitOnSubstr pat ((c :: rest).drop pat.length)
    else
      match splitOnSubstr pat rest with
      | piece :: t => (c :: piece) :: t
      | [] => [[c]]
  termination_by cs => cs.length
  decreasing_by
    · simp only [List.length_drop, List.length_cons]
      have : pat.length ≥ 1 := by
        cases pat with
        | nil => exact absurd rfl h.2
        | cons p ps => simp
      omega
    · simp

/-- The text after the first occurrence of a nonempty literal, or `none` when
the literal does not occur (regex engines try match positions left to right,
so a leading-literal pattern anchors at the first occurrence). -/
def afterFirst (pat : List Char) (cs : List Char) : Option (List Char) :=
  match splitOnSubstr pat cs with
  | _ :: rest =>
    match rest with
    | [] => none
    | _ :: _ => some (List.intercalate pat rest)
  | [] => none

/-- Capture of `.* from ([\d.]+)`: the greedy `.*` backtracks to the LAST
` from ` that is followed by at least one `[\d.]` character; the capture is
the maximal such run. -/
def lastFromCapture (cs : List Char) : Option (List Char) :=
  match splitOnSubstr (" from ".data) cs with
  | [] => none
  | _ :: tailParts =>
    (tailParts.reverse.find? (fun p => ¬ (p.takeWhile isIpChar).isEmpty)).map
      (fun p => p.takeWhile isIpChar)

/-- Capture of `.* \[([\d.]+)\]`: the last ` [` followed by a nonempty
`[\d.]` run whose next character is `]` (the greedy run cannot backtrack past
a non-`]` boundary). -/
def lastBracketCapture (cs : List Char) : Option (List Char) :=
  match splitOnSubstr (" [".data) cs with
  | [] => none
  | _ :: tailParts =>
    (tailParts.reverse.find? (fun p =>
        ¬ (p.takeWhile isIpChar).isEmpty ∧
          startsWithList (p.drop (p.takeWhile isIpChar).length) ("]".data))).map
      (fun p => p.takeWhile isIpChar)

/-- Capture of a pattern `lit([\d.]+)` with no `.*`: the first occurrence of
the literal followed immediately by a nonempty `[\d.]` run. -/
def firstImmediateCapture (pat : List Char) (cs : List Char) : Option (List Char) :=
  match splitOnSubstr pat cs with
  | [] => none
  | _ :: tailParts =>
    (tailParts.find? (fun p => ¬ (p.takeWhile isIpChar).isEmpty)).map
      (fun p => p.takeWhile isIpChar)

/-- `DEDUP_PATTERNS`, tried in insertion order; all are case-insensitive, so
matching runs on the lowercased line (captures are digits and dots, which
lowercasing leaves unchanged). Returns (pattern name, captured text). -/
def matchDedupPattern (line : String) : Option (String × String) :=
  let lower := line.data.map Char.toLower
  match (afterFirst ("failed password for ".data) lower).bind lastFromCapture with
  | some cap => some ("failedPassword", String.mk cap)
  | none =>
  match (afterFirst ("invalid user ".data) lower).bind lastFromCapture with
  | some cap => some ("invalidUser", String.mk cap)
  | none =>
  match (afterFirst ("connection closed by ".data) lower).bind lastBracketCapture with
  | some cap => some ("connectionClosed", String.mk cap)
  | none =>
  match (afterFirst ("accepted password for ".data) lower).bind lastFromCapture with
  | some cap => some ("acceptedPassword", String.mk cap)
  | none =>
  match firstImmediateCapture ("refused connect from ".data) lower with
  | some cap => some ("refusedConnect", String.mk cap)
  | none => none

/-- Entry of the `groupedMessages` map: running count and the first grouped
line (the source's `example` field; its unused `lines` array is omitted). -/
structure GroupData where
  count : Nat
  firstLine : String
deriving DecidableEq, Repr

/-- Increment a key of the insertion-ordered `groupedMessages` map,
inserting it with count 1 if absent. -/
def bumpGroup : List ((String × String) × GroupData) → (String × String) → String →
    List ((String × String) × GroupData)
  | [], key, line => [(key, { count := 1, firstLine := line })]
  | (k, d) :: rest, key, line =>
    if k = key then (k, { d with count := d.count + 1 }) :: rest
    else (k, d) :: bumpGroup rest key line

/-- Keep-verbatim test of the dedup loop:
`!line.trim() || line.match(/^-+/) || line.match(/^=+/)`. -/
def keepAsIs (line : String) : Bool :=
  (jsTrim line == "") || (match line.data with
                          | c :: _ => c = '-' ∨ c = '='
                          | [] => false)

/-- Main loop of `deduplicateSection`: returns the kept lines, the grouped
messages, and the number of lines removed by the exact-duplicate collapse.
On a collapse of `duplicateCount` matches within the 5-line lookahead the
source advances the index by `duplicateCount`, skipping that many following
lines (whether or not each skipped line was one of the matches). -/
def dedupGo : List String → List ((String × String) × GroupData) →
    List String × List ((String × String) × GroupData) × Nat
  | [], groups => ([], groups, 0)
  | line :: rest, groups =>
    if keepAsIs line then
      let r := dedupGo rest groups
      (line :: r.1, r.2.1, r.2.2)
    else
      match matchDedupPattern line with
      | some (pname, cap) =>
        dedupGo rest (bumpGroup groups (pname, if cap = "" then "generic" else cap) line)
      | none =>
        let nextLines := rest.take 5
        let duplicateCount := (nextLines.filter (fun l2 => jsTrim l2 = jsTrim line)).length
        if duplicateCount ≥ 2 then
          let r := dedupGo (rest.drop duplicateCount) groups
          ((line ++ " (repeated " ++ toString (duplicateCount + 1) ++ "x)") :: r.1,
            r.2.1, r.2.2 + duplicateCount)
        else
          let r := dedupGo rest groups
          (line :: r.1, r.2.1, r.2.2)
  termination_by lines _ => lines.length
  decreasing_by
    · simp
    · simp
    · simp only [List.length_drop, List.length_cons]; omega
    · simp

/-- Final pass over `groupedMessages` (insertion order): a multi-member group
becomes one summary line and counts `count - 1` deduplicated lines; a
singleton keeps its original line. -/
def groupSummaryLines (groups : List ((String × String) × GroupData)) : List String × Nat :=
  groups.foldl
    (fun acc entry =>
      if entry.2.count > 1 then
        (acc.1 ++ ["   " ++ toString entry.2.count ++ " similar " ++ entry.1.1 ++
          " events from " ++ entry.1.2], acc.2 + (entry.2.count - 1))
      else (acc.1 ++ [entry.2.firstLine], acc.2))
    ([], 0)

/-- `LogwatchPreprocessor.deduplicateSection`: sections of 3 or fewer lines
pass through; otherwise the dedup loop runs and the grouped summaries are
appended. Returns the section and the `linesDeduplicated` increment. -/
def deduplicateSection (s : Section) : Section × Nat :=
  if s.lines.length ≤ 3 then (s, 0)
  else
    let r := dedupGo s.lines []
    let gs := groupSummaryLines r.2.1
    let finalLines := r.1 ++ gs.1
    ({ s with lines := finalLines, content := joinWith "\n" finalLines },
      r.2.2 + gs.2)

/-- Per-section processing of `compressSections`: LOW-priority sections keep
their first `max(5, ceil(lines * 0.2))` lines under a marker (always
rewritten); MEDIUM keep `max(10, ceil(lines * 0.5))` only when that shortens
them; HIGH pass through. `Math.ceil(n * 0.2)` equals `ceil(n / 5)` and
`Math.ceil(n * 0.5)` equals `ceil(n / 2)` (exact in floats for these sizes).
Returns the processed section, the `sectionsCompressed` increment, and the
`linesRemoved` increment (an Int: the source adds `lines.length - targetLines`,
negative for a LOW section shorter than 5 lines). -/
def compressSection (s : Section) : Section × Nat × Int :=
  if s.priority = 1 then
    let n := s.lines.length
    let targetLines := max 5 ((n + 4) / 5)
    let compressed := s.header ::
      ("   [Section compressed: showing " ++ toString targetLines ++ " of " ++
        toString n ++ " lines]") :: s.lines.take targetLines
    ({ s with content := joinWith "\n" compressed }, 1, (n : Int) - (targetLines : Int))
  else if s.priority = 2 then
    let n := s.lines.length
    let targetLines := max 10 ((n + 1) / 2)
    if n > targetLines then
      let compressed := s.header ::
        ("   [Section condensed: showing " ++ toString targetLines ++ " of " ++
          toString n ++ " lines]") :: s.lines.take targetLines
      ({ s with content := joinWith "\n" compressed }, 1, (n : Int) - (targetLines : Int))
    else (s, 0, 0)
  else (s, 0, 0)

/-- The stable sort `[...sections].sort((a, b) => b.priority - a.priority)`:
descending priority, original order among equal priorities (insertion sort
with this total preorder produces exactly the stable-sort result). -/
def sortSectionsByPriority (sections : List Section) : List Section :=
  List.insertionSort (fun a b => b.priority ≤ a.priority) sections

/-- Reassembly step of `compressSections`: process in descending-priority
order, then rebuild the original order by looking each original section up in
the processed list via `find(p => p.name === original.name && p.header ===
original.header)`. The source's `find` cannot return `undefined` here (the
processed list is a permutation of the processed originals and processing
preserves name and header), so `.getD original` covers an unreachable branch. -/
def reassembleSections (sections : List Section) : List Section :=
  sections.map (fun original =>
    (((sortSectionsByPriority sections).map (fun s => (compressSection s).1)).find? (fun p =>
        p.name == original.name && p.header == original.header)).getD original)

/-- `LogwatchPreprocessor.compressSections`: the final string (processed
contents in original section order, blank-line separated) together with the
total `sectionsCompressed` and `linesRemoved` increments (the source
accumulates them while looping over the sorted list; the sums are
order-independent). -/
def compressSections (sections : List Section) : String × Nat × Int :=
  let totals := sections.foldl
    (fun acc s => (acc.1 + (compressSection s).2.1, acc.2 + (compressSection s).2.2))
    ((0 : Nat), (0 : Int))
  (joinWith "\n\n" ((reassembleSections sections).map (fun s => s.content)),
    totals.1, totals.2)

/-- The statistics object of `LogwatchPreprocessor` (all fields reset to 0 at
construction). -/
structure PreprocessStats where
  originalSize : Nat
  processedSize : Nat
  originalTokens : Nat
  processedTokens : Nat
  linesRemoved : Int
  linesDeduplicated : Nat
  sectionsCompressed : Nat
deriving DecidableEq, Repr

/-- Freshly constructed statistics. -/
def initialStats : PreprocessStats :=
  { originalSize := 0, processedSize := 0, originalTokens := 0,
    processedTokens := 0, linesRemoved := 0, linesDeduplicated := 0,
    sectionsCompressed := 0 }

/-- `LogwatchPreprocessor.preprocess` with a freshly constructed stats
object: returns the processed content and the statistics visible through
`getStats()` after the call. Empty / whitespace-only content returns
immediately (before the stats fields are written); content within the token
ceiling returns unchanged; otherwise the parse → deduplicate → (maybe)
compress pipeline runs. -/
def preprocess (maxTokens : Nat) (content : String) : String × PreprocessStats :=
  if jsTrim content = "" then (content, initialStats)
  else
    let stats1 := { initialStats with
      originalSize := content.length, originalTokens := estimateTokens content }
    if stats1.originalTokens ≤ maxTokens then
      (content, { stats1 with
        processedSize := stats1.originalSize, processedTokens := stats1.originalTokens })
    else
      let sections := parseSections content
      let processed := sections.map deduplicateSection
      let dedupedSections := processed.map (fun (p : Section × Nat) => p.1)
      let stats2 := { stats1 with
        linesDeduplicated := stats1.linesDeduplicated + (processed.map (fun (p : Section × Nat) => p.2)).sum }
      let afterDedup := joinWith "\n\n" (dedupedSections.map (fun s => s.content))
      let afterDedupTokens := estimateTokens afterDedup
      if afterDedupTokens ≤ maxTokens then
        (afterDedup, { stats2 with
          processedSize := afterDedup.length, processedTokens := afterDedupTokens })
      else
        let result := compressSections dedupedSections
        (result.1, { stats2 with
          sectionsCompressed := stats2.sectionsCompressed + result.2.1,
          linesRemoved := stats2.linesRemoved + result.2.2,
          processedSize := result.1.length,
          processedTokens := estimateTokens result.1 })

/-! ## Config: MAX_LOG_SIZE_MB resolution and validation
(config/config.js lines 33-36 and 96-121) -/

/-- Decimal digit value. -/
def digitVal (c : Char) : Nat :=
  c.toNat - '0'.toNat

/-- Hexadecimal digit test. -/
def isHexDigit (c : Char) : Bool :=
  c.isDigit ∨ ('a' ≤ c.toLower ∧ c.toLower ≤ 'f')

/-- Hexadecimal digit value. -/
def hexDigitVal (c : Char) : Nat :=
  if c.isDigit then digitVal c else c.toLower.toNat - 'a'.toNat + 10

/-- `parseInt(s)` with the default radix: leading whitespace is skipped, an
optional sign is read, a `0x`/`0X` prefix switches to hexadecimal, and the
longest prefix of digits is converted (`none` models NaN when there is no
digit). Modelled with exact integer arithmetic; the float rounding of
`parseInt` on huge inputs does not affect which side of the 1..100 range a
value falls on. -/
def parseIntJS (s : String) : Option Int :=
  let cs := s.data.dropWhile jsIsSpace
  let (sign, cs) : Int × List Char :=
    match cs with
    | '-' :: t => (-1, t)
    | '+' :: t => (1, t)
    | _ => (1, cs)
  match cs with
  | '0' :: x :: t =>
    if x = 'x' ∨ x = 'X' then
      let digits := t.takeWhile isHexDigit
      if digits.isEmpty then none
      else some (sign * (digits.foldl (fun acc c => acc * 16 + hexDigitVal c) 0 : Nat))
    else
      let digits := (('0' :: x :: t).takeWhile Char.isDigit)
      some (sign * (digits.foldl (fun acc c => acc * 10 + digitVal c) 0 : Nat))
  | _ =>
    let digits := cs.takeWhile Char.isDigit
    if digits.isEmpty then none
    else some (sign * (digits.foldl (fun acc c => acc * 10 + digitVal c) 0 : Nat))

/-- `this.logwatch.maxSizeMB = parseInt(process.env.MAX_LOG_SIZE_MB) || 10`:
an unset variable, a NaN parse, and a parse to 0 (all falsy) fall back to the
default 10. -/
def resolveMaxLogSizeMB (env : Option String) : Int :=
  match env with
  | none => 10
  | some s =>
    match parseIntJS s with
    | none => 10
    | some n => if n = 0 then 10 else n

/-- The `Config.validate` size check: construction throws
"MAX_LOG_SIZE_MB must be between 1 and 100" iff
`this.logwatch.maxSizeMB < 1 || this.logwatch.maxSizeMB > 100`; this function
is `true` iff that check passes. -/
def maxLogSizeCheck (env : Option String) : Bool :=
  ¬ (resolveMaxLogSizeMB env < 1 ∨ resolveMaxLogSizeMB env > 100)

/-! ## Logger
(src/storage.js second module, lines 299-437) -/

/-- The four log levels (`this.levels` in the source). -/
inductive LogLevel where
  | debug
  | info
  | warn
  | error
deriving DecidableEq, Repr

/-- `this.levels[level]`: debug=0 < info=1 < warn=2 < error=3. -/
def levelRank : LogLevel → Nat
  | LogLevel.debug => 0
  | LogLevel.info => 1
  | LogLevel.warn => 2
  | LogLevel.error => 3

/-- Rank lookup for the constructor's level string. -/
def levelRankOfString (s : String) : Option Nat :=
  if s = "debug" then some 0
  else if s = "info" then some 1
  else if s = "warn" then some 2
  else if s = "error" then some 3
  else none

/-- `this.currentLevel = this.levels[logLevel] || this.levels.info`: an
unknown level string falls back to info's rank — and so does "debug", whose
rank 0 is falsy. -/
def currentLevelOf (logLevel : String) : Nat :=
  match levelRankOfString logLevel with
  | none => 1
  | some r => if r = 0 then 1 else r

/-- Level name as written by `formatMessage` (`level.toUpperCase()`). -/
def levelUpper : LogLevel → String
  | LogLevel.debug => "DEBUG"
  | LogLevel.info => "INFO"
  | LogLevel.warn => "WARN"
  | LogLevel.error => "ERROR"

/-- Observable state touched by `Logger.write`: the active log file (`none`
when absent), the rotated generations `.1`..`.4` (each possibly absent), and
the console echo history. -/
structure LoggerState where
  activeFile : Option String
  rotatedFiles : List (Option String)
  consoleOut : List String
deriving DecidableEq, Repr

/-- `Logger.formatMessage`: `[timestamp] [LEVEL] message` plus a newline. -/
def formatMessage (level : LogLevel) (message : String) (timestamp : String) : String :=
  "[" ++ timestamp ++ "] [" ++ levelUpper level ++ "] " ++ message ++ "\n"

/-- The logger's 10 MB rotation threshold. -/
def maxLogFileSize : Nat := 10 * 1024 * 1024

/-- `Logger.rotateIfNeeded`: returns unchanged when the active file is absent
or below 10 MB; otherwise `.4` is deleted, `.1`..`.3` shift up one suffix,
and the active file becomes `.1`. -/
def rotateIfNeeded (st : LoggerState) : LoggerState :=
  match st.activeFile with
  | none => st
  | some content =>
    if content.length < maxLogFileSize then st
    else
      { st with
        activeFile := none,
        rotatedFiles := some content :: st.rotatedFiles.take 3 }

/-- `Logger.write` with the level configured at construction, the current
timestamp, and `process.env.NODE_ENV`: messages ranking below the configured
level return before any console echo, rotation check, or file append; the
remainder echoes to the console outside production mode, rotates if needed,
and appends to the active file (creating it when absent). -/
def write (configuredLevel : String) (level : LogLevel) (message : String)
    (timestamp : String) (nodeEnv : String) (st : LoggerState) : LoggerState :=
  if levelRank level < currentLevelOf configuredLevel then st
  else
    let formatted := formatMessage level message timestamp
    let st :=
      if nodeEnv ≠ "production" then
        { st with consoleOut := st.consoleOut ++ [jsTrim formatted] }
      else st
    let st := rotateIfNeeded st
    { st with activeFile := some ((st.activeFile.getD ("")) ++ formatted) }

/-! ## LogwatchReader.isFileRecent
(logwatch-reader module, lines 159-183) -/

/-- `LogwatchReader.getFileModificationTime`: `fs.statSync(path).mtime` in
epoch milliseconds, with the catch branch returning null; the file system is
modelled as a partial map from paths to modification times. -/
def getFileModificationTime (fileSystem : String → Option Int) (path : String) : Option Int :=
  fileSystem path

/-- `LogwatchReader.isFileRecent`: false when the modification time is
unavailable, otherwise true iff `(now - mtime) / (1000*60*60) <= 24` —
equivalently `now - mtime ≤ 24 * 3600000` (exact rational comparison; the
float quotient cannot cross the boundary for epoch-scale values). -/
def isFileRecent (fileSystem : String → Option Int) (path : String) (now : Int) : Bool :=
  match getFileModificationTime fileSystem path with
  | none => false
  | some mtime => now - mtime ≤ 24 * (1000 * 60 * 60)


/-! ## Association-list lemmas -/

theorem getField_setField_self (a : List (String × Json)) (k : String) (v : Json)
    (h : hasField a k = true) : getField (setField a k v) k = v := by
  induction a with
  | nil => simp [hasField] at h
  | cons p rest ih =>
    obtain ⟨k1, v1⟩ := p
    by_cases hk : k1 = k
    · simp [setField, getField, hk]
    · have h2 : hasField rest k = true := by
        simp only [hasField, List.any_cons, Bool.or_eq_true, beq_iff_eq] at h
        rcases h with h | h
        · exact absurd h hk
        · simpa [hasField] using h
      simp [setField, getField, hk, ih h2]

theorem getField_setField_ne (a : List (String × Json)) (k k2 : String) (v : Json)
    (h : k ≠ k2) : getField (setField a k v) k2 = getField a k2 := by
  induction a with
  | nil => simp [setField]
  | cons p rest ih =>
    obtain ⟨k1, v1⟩ := p
    by_cases hk : k1 = k
    · subst hk
      simp [setField, getField, h, ih]
    · simp only [setField, if_neg hk]
      by_cases hk2 : k1 = k2
      · simp [getField, hk2]
      · simp [getField, hk2, ih]

theorem getField_coerceStatus_ne (a : List (String × Json)) (k : String)
    (h : k ≠ "systemStatus") : getField (coerceStatus a) k = getField a k := by
  unfold coerceStatus
  split
  · rfl
  · exact getField_setField_ne a ("systemStatus") k (Json.str "Satisfactory") (Ne.symm h)

theorem getField_coerceStatus_status (a : List (String × Json))
    (h : hasField a ("systemStatus") = true) :
    ∃ s, s ∈ validStatuses ∧ getField (coerceStatus a) ("systemStatus") = Json.str s := by
  unfold coerceStatus
  split
  · next hvalid =>
    unfold statusIsValid at hvalid
    split at hvalid
    · next s heq =>
      exact ⟨s, List.mem_of_elem_eq_true hvalid, heq⟩
    · exact absurd hvalid (by simp)
  · exact ⟨"Satisfactory", by decide,
      getField_setField_self a ("systemStatus") (Json.str "Satisfactory") h⟩

set_option maxHeartbeats 2000000 in
theorem validateAnalysis_ok (a validated : List (String × Json))
    (h : validateAnalysis a = Except.ok validated) :
    validated = coerceStatus a
    ∧ hasField a ("systemStatus") = true ∧ hasField a ("summary") = true
    ∧ hasField a ("criticalIssues") = true ∧ hasField a ("warnings") = true
    ∧ hasField a ("recommendations") = true ∧ hasField a ("metrics") = true
    ∧ isArrayJS (getField a ("criticalIssues")) = true
    ∧ isArrayJS (getField a ("warnings")) = true
    ∧ isArrayJS (getField a ("recommendations")) = true
    ∧ jsTypeof (getField a ("metrics")) = "object" := by
  unfold validateAnalysis at h
  split_ifs at h with h1 h2 h3 h4 h5 h6 h7 h8 h9 h10
  have e1 : getField (coerceStatus a) ("criticalIssues") = getField a ("criticalIssues") :=
    getField_coerceStatus_ne a _ (by decide)
  have e2 : getField (coerceStatus a) ("warnings") = getField a ("warnings") :=
    getField_coerceStatus_ne a _ (by decide)
  have e3 : getField (coerceStatus a) ("recommendations") = getField a ("recommendations") :=
    getField_coerceStatus_ne a _ (by decide)
  have e4 : getField (coerceStatus a) ("metrics") = getField a ("metrics") :=
    getField_coerceStatus_ne a _ (by decide)
  exact ⟨(Except.ok.inj h).symm, by simpa using h1, by simpa using h2,
    by simpa using h3, by simpa using h4, by simpa using h5, by simpa using h6,
    by rw [← e1]; simpa using h7, by rw [← e2]; simpa using h8,
    by rw [← e3]; simpa using h9, by rw [← e4]; simpa using h10⟩

/-- The error direction of `validateAnalysis`: any failed structural check
makes the result an error. -/
theorem validateAnalysis_error_of_bad (a : List (String × Json))
    (hbad : hasField a ("systemStatus") = false ∨ hasField a ("summary") = false
      ∨ hasField a ("criticalIssues") = false ∨ hasField a ("warnings") = false
      ∨ hasField a ("recommendations") = false ∨ hasField a ("metrics") = false
      ∨ isArrayJS (getField a ("criticalIssues")) = false
      ∨ isArrayJS (getField a ("warnings")) = false
      ∨ isArrayJS (getField a ("recommendations")) = false
      ∨ jsTypeof (getField a ("metrics")) ≠ "object") :
    ∀ v, validateAnalysis a ≠ Except.ok v := by
  intro v hv
  obtain ⟨_, c1, c2, c3, c4, c5, c6, c7, c8, c9, c10⟩ := validateAnalysis_ok a v hv
  rcases hbad with h | h | h | h | h | h | h | h | h | h <;> simp_all

/-- A structurally valid LLM response whose `systemStatus` is the invalid
literal "Mostly Fine". -/
def mostlyFineResponse : List (String × Json) :=
  [("systemStatus", Json.str "Mostly Fine"),
   ("summary", Json.str "All mostly fine."),
   ("criticalIssues", Json.arr []),
   ("warnings", Json.arr []),
   ("recommendations", Json.arr []),
   ("metrics", Json.obj [])]

/-- C1: every Analysis Result produced by the LLM client's response parsing
has a `systemStatus` among the five enumerated values; a structurally valid
decoded response carrying any other `systemStatus` yields exactly
"Satisfactory"; in particular a response with `systemStatus` "Mostly Fine"
yields exactly "Satisfactory". -/
theorem claim1_system_status_invariant :
    (∀ d : Option (List (String × Json)),
        ∃ s, s ∈ validStatuses ∧
          getField (parseAnalysisResponse d) ("systemStatus") = Json.str s)
    ∧ (∀ a : List (String × Json), (validateAnalysis a).isOk = true →
        statusIsValid a = false →
        getField (parseAnalysisResponse (some a)) ("systemStatus") = Json.str "Satisfactory")
    ∧ getField (parseAnalysisResponse (some mostlyFineResponse)) ("systemStatus")
        = Json.str "Satisfactory" := by
  refine ⟨?_, ?_, by rfl⟩
  · intro d
    cases d with
    | none => exact ⟨"Satisfactory", by decide, rfl⟩
    | some a =>
      cases hv : validateAnalysis a with
      | error e =>
        refine ⟨"Satisfactory", by decide, ?_⟩
        have hp : parseAnalysisResponse (some a) = fallbackAnalysis := by
          simp [parseAnalysisResponse, hv]
        rw [hp]
        rfl
      | ok validated =>
        obtain ⟨hval, hfield, -⟩ := validateAnalysis_ok a validated hv
        have hp : parseAnalysisResponse (some a) = validated := by
          simp [parseAnalysisResponse, hv]
        rw [hp, hval]
        exact getField_coerceStatus_status a hfield
  · intro a hok hinvalid
    cases hv : validateAnalysis a with
    | error e => rw [hv] at hok; simp [Except.isOk, Except.toBool] at hok
    | ok validated =>
      obtain ⟨hval, hfield, -⟩ := validateAnalysis_ok a validated hv
      have hp : parseAnalysisResponse (some a) = validated := by
        simp [parseAnalysisResponse, hv]
      rw [hp, hval]
      unfold coerceStatus
      rw [if_neg (by simp [hinvalid])]
      exact getField_setField_self a ("systemStatus") (Json.str "Satisfactory") hfield

/-- Witness for C1: the theorem's coercion part applied to the concrete
"Mostly Fine" response, discharging its hypotheses there. -/
theorem claim1_witness :
    (validateAnalysis mostlyFineResponse).isOk = true
    ∧ statusIsValid mostlyFineResponse = false
    ∧ getField (parseAnalysisResponse (some mostlyFineResponse)) ("systemStatus")
        = Json.str "Satisfactory" :=
  ⟨by rfl, by rfl,
    claim1_system_status_invariant.2.1 mostlyFineResponse (by rfl) (by rfl)⟩

/-- A structurally valid decoded response whose `metrics` field is JSON
`null`: not a key-value map, yet `typeof null === "object"` lets it through
validation. Such an object is a real decode result, e.g. of an LLM response
whose JSON body ends with `"metrics": null`. -/
def nullMetricsResponse : List (String × Json) :=
  [("systemStatus", Json.str "Good"),
   ("summary", Json.str "ok"),
   ("criticalIssues", Json.arr []),
   ("warnings", Json.arr []),
   ("recommendations", Json.arr []),
   ("metrics", Json.null)]

/-- C2 counterexample: the claim says a decoded object whose `metrics` is not
a key-value map yields the fixed fallback object; with `metrics` equal to
JSON `null` (not a key-value map — not even an object value) the parse
instead returns the decoded object itself, which differs from the fallback. -/
theorem claim2_counterexample :
    getField nullMetricsResponse ("metrics") = Json.null
    ∧ (∀ fields, getField nullMetricsResponse ("metrics") ≠ Json.obj fields)
    ∧ parseAnalysisResponse (some nullMetricsResponse) = nullMetricsResponse
    ∧ parseAnalysisResponse (some nullMetricsResponse) ≠ fallbackAnalysis := by
  refine ⟨rfl, by intro fields h; exact Json.noConfusion h, rfl, ?_⟩
  intro h
  have e1 : getField (parseAnalysisResponse (some nullMetricsResponse)) ("summary")
      = Json.str "ok" := rfl
  rw [h] at e1
  have e2 : getField fallbackAnalysis ("summary")
      = Json.str "Failed to parse AI response. Manual review required." := rfl
  rw [e2] at e1
  exact absurd (Json.str.inj e1) (by decide)

/-- C2 (amended): if extraction or JSON decoding fails, or the decoded object
is missing one of the six required top-level fields, or one of
criticalIssues/warnings/recommendations is not a list, or `metrics` is a
scalar (string, number or boolean — JS `typeof` other than "object"; JSON
`null` and lists pass the source's check), then `parseAnalysisResponse`
raises no error and returns exactly the fixed fallback object. -/
theorem claim2_parse_failure_fallback :
    parseAnalysisResponse none = fallbackAnalysis
    ∧ (∀ a : List (String × Json),
        (hasField a ("systemStatus") = false ∨ hasField a ("summary") = false
          ∨ hasField a ("criticalIssues") = false ∨ hasField a ("warnings") = false
          ∨ hasField a ("recommendations") = false ∨ hasField a ("metrics") = false
          ∨ isArrayJS (getField a ("criticalIssues")) = false
          ∨ isArrayJS (getField a ("warnings")) = false
          ∨ isArrayJS (getField a ("recommendations")) = false
          ∨ jsTypeof (getField a ("metrics")) ≠ "object") →
        parseAnalysisResponse (some a) = fallbackAnalysis) := by
  refine ⟨rfl, ?_⟩
  intro a hbad
  cases hv : validateAnalysis a with
  | error e => simp [parseAnalysisResponse, hv]
  | ok validated => exact absurd hv (validateAnalysis_error_of_bad a hbad validated)

/-- Witness for C2: the theorem applied to the empty decoded object (all six
required fields missing), discharging the failure-condition hypothesis. -/
theorem claim2_witness :
    (hasField ([] : List (String × Json)) ("systemStatus") = false)
    ∧ parseAnalysisResponse (some []) = fallbackAnalysis :=
  ⟨by rfl, claim2_parse_failure_fallback.2 [] (Or.inl (by rfl))⟩

/-- C3: with the five-valued status, the report is delivered to the archive
channel in every case; with an alerts channel configured the identical
message goes to the alerts channel iff the status is Satisfactory, Bad or
Awful; with no alerts channel configured only the archive send happens.
(Spec-modelled two-channel client; distinct channel identifiers.) -/
theorem claim3_alerts_channel_gating :
    ∀ status, status ∈ validStatuses →
    ∀ archiveId alertsId message : String, alertsId ≠ archiveId →
      ((archiveId, message) ∈ sendAnalysisReport archiveId (some alertsId) status message)
      ∧ ((alertsId, message) ∈ sendAnalysisReport archiveId (some alertsId) status message
          ↔ (status = "Satisfactory" ∨ status = "Bad" ∨ status = "Awful"))
      ∧ sendAnalysisReport archiveId none status message = [(archiveId, message)] := by
  intro status hs archiveId alertsId message hne
  by_cases hcond : status = "Satisfactory" ∨ status = "Bad" ∨ status = "Awful"
  · refine ⟨by simp [sendAnalysisReport, hcond], ?_, by simp [sendAnalysisReport]⟩
    simp [sendAnalysisReport, hcond]
  · refine ⟨by simp [sendAnalysisReport, hcond], ?_, by simp [sendAnalysisReport]⟩
    simp [sendAnalysisReport, hcond, hne]

/-- Witness for C3: status "Bad" with the two distinct concrete channels,
discharging the membership and distinctness hypotheses. -/
theorem claim3_witness :
    ("Bad" ∈ validStatuses)
    ∧ ("-1002", "report") ∈ sendAnalysisReport ("-1001") (some ("-1002")) ("Bad") ("report") :=
  ⟨by decide,
    ((claim3_alerts_channel_gating ("Bad") (by decide) ("-1001") ("-1002") ("report")
      (by decide)).2.1).mpr (Or.inr (Or.inl rfl))⟩

/-- Count bookkeeping of `cleanup`: rows minus retained equals deleted. -/
theorem filter_not_length (rows : List SummaryRow) (c : Int) :
    rows.length - (rows.filter (fun r => ¬ (r.timestamp < c))).length
      = (rows.filter (fun r => r.timestamp < c)).length := by
  have h := List.length_eq_length_filter_add (l := rows) (fun r => decide (r.timestamp < c))
  have e : (rows.filter (fun r => ¬ (r.timestamp < c)))
      = rows.filter (fun r => !(decide (r.timestamp < c))) := by
    simp only [decide_not]
  rw [e]
  omega

/-- C4: with the database enabled, `cleanup` retains exactly the rows whose
timestamp is at or after now − days×86400 s, deletes the strictly older
rows, and returns the number deleted; disabled it is a no-op returning 0;
with the default 90-day window a row exactly 91 days old is removed and a
row exactly 89 days old is retained. -/
theorem claim4_cleanup_retention :
    (∀ (rows : List SummaryRow) (now days : Int), ∀ r ∈ rows,
        (r ∈ (cleanup true rows now days).1 ↔ now - days * 86400 ≤ r.timestamp))
    ∧ (∀ (rows : List SummaryRow) (now days : Int),
        (cleanup true rows now days).2
          = (rows.filter (fun r => r.timestamp < now - days * 86400)).length)
    ∧ (∀ (rows : List SummaryRow) (now days : Int),
        cleanup false rows now days = (rows, 0))
    ∧ (∀ now : Int, cleanup true
        [{ timestamp := now - 91 * 86400, summary := "old" },
         { timestamp := now - 89 * 86400, summary := "recent" }] now 90
        = ([{ timestamp := now - 89 * 86400, summary := "recent" }], 1)) := by
  refine ⟨?_, ?_, ?_, ?_⟩
  · intro rows now days r hr
    simp only [cleanup, not_true, Bool.false_eq_true, if_neg, ite_false, if_false]
    simp [List.mem_filter, hr, Int.not_lt]
  · intro rows now days
    simp only [cleanup, not_true, if_neg, ite_false]
    exact filter_not_length rows (now - days * 86400)
  · intro rows now days
    simp [cleanup]
  · intro now
    have h1 : now - 91 * 86400 < now - 90 * 86400 := by omega
    have h2 : ¬ (now - 89 * 86400 < now - 90 * 86400) := by omega
    simp [cleanup, List.filter, h1, h2]

/-- Witness for C4: the retention part applied to a concrete one-row
database, discharging the membership and boundary hypotheses. -/
theorem claim4_witness :
    ({ timestamp := 0, summary := "x" } : SummaryRow)
      ∈ (cleanup true [{ timestamp := 0, summary := "x" }] 0 90).1 :=
  ((claim4_cleanup_retention.1 [{ timestamp := 0, summary := "x" }] 0 90
    { timestamp := 0, summary := "x" } (by decide)).mpr (by decide))

/-- C8 counterexample: the claim says every MAX_LOG_SIZE_MB value outside
1..100, including "0" and non-numeric values, fails construction; but
`parseInt(env) || 10` turns a parsed 0 and a NaN parse into the default 10,
which passes the validation check. -/
theorem claim8_counterexample :
    resolveMaxLogSizeMB (some ("0")) = 10
    ∧ maxLogSizeCheck (some ("0")) = true
    ∧ resolveMaxLogSizeMB (some ("not-a-number")) = 10
    ∧ maxLogSizeCheck (some ("not-a-number")) = true := by decide

/-- C8 (amended): the size check passes exactly when the resolved ceiling
lies in 1..100; every value parsing to an integer in 1..100 passes; a value
parsing to a nonzero integer outside 1..100 fails construction; values that
parse to 0 or do not parse at all (non-numeric, unset) fall back to the
default 10 and pass. -/
theorem claim8_max_log_size_validation :
    (∀ env, maxLogSizeCheck env = true ↔
        (1 ≤ resolveMaxLogSizeMB env ∧ resolveMaxLogSizeMB env ≤ 100))
    ∧ (∀ s n, parseIntJS s = some n → 1 ≤ n → n ≤ 100 →
        maxLogSizeCheck (some s) = true)
    ∧ (∀ s n, parseIntJS s = some n → n ≠ 0 → (n < 1 ∨ 100 < n) →
        maxLogSizeCheck (some s) = false)
    ∧ (∀ s, parseIntJS s = none →
        maxLogSizeCheck (some s) = true ∧ resolveMaxLogSizeMB (some s) = 10)
    ∧ (∀ s, parseIntJS s = some 0 →
        maxLogSizeCheck (some s) = true ∧ resolveMaxLogSizeMB (some s) = 10)
    ∧ maxLogSizeCheck none = true := by
  refine ⟨?_, ?_, ?_, ?_, ?_, by decide⟩
  · intro env
    simp only [maxLogSizeCheck, not_or, decide_eq_true_eq]
    omega
  · intro s n hp h1 h100
    have hres : resolveMaxLogSizeMB (some s) = n := by
      simp [resolveMaxLogSizeMB, hp]
      omega
    simp only [maxLogSizeCheck, hres, not_or, decide_eq_true_eq]
    omega
  · intro s n hp hn0 hout
    have hres : resolveMaxLogSizeMB (some s) = n := by
      simp [resolveMaxLogSizeMB, hp, hn0]
    simp only [maxLogSizeCheck, hres]
    simp only [decide_eq_false_iff_not, not_not]
    omega
  · intro s hp
    constructor
    · simp [maxLogSizeCheck, resolveMaxLogSizeMB, hp]
    · simp [resolveMaxLogSizeMB, hp]
  · intro s hp
    constructor
    · simp [maxLogSizeCheck, resolveMaxLogSizeMB, hp]
    · simp [resolveMaxLogSizeMB, hp]

/-- Witness for C8: the theorem applied to the value "50", discharging the
parse and range hypotheses. -/
theorem claim8_witness : maxLogSizeCheck (some ("50")) = true :=
  claim8_max_log_size_validation.2.1 ("50") 50 (by decide) (by decide) (by decide)

/-- C9: a message ranking strictly below the logger's configured level makes
`Logger.write` return with no observable effect in any run mode — the file,
the rotation state and the console are all left unchanged. -/
theorem claim9_below_level_no_effect :
    ∀ (configuredLevel : String) (level : LogLevel) (message timestamp nodeEnv : String)
      (st : LoggerState),
      levelRank level < currentLevelOf configuredLevel →
      write configuredLevel level message timestamp nodeEnv st = st := by
  intro configuredLevel level message timestamp nodeEnv st h
  unfold write
  rw [if_pos h]

/-- Witness for C9: a debug message on an info-level logger, in production
and development mode, discharging the level hypothesis. -/
theorem claim9_witness :
    write ("info") LogLevel.debug ("hello") ("2025-01-13T05:00:01.000Z") ("production")
      { activeFile := some ("old"), rotatedFiles := [none, none, none, none], consoleOut := [] }
      = { activeFile := some ("old"), rotatedFiles := [none, none, none, none], consoleOut := [] }
    ∧ write ("info") LogLevel.debug ("hello") ("2025-01-13T05:00:01.000Z") ("development")
      { activeFile := some ("old"), rotatedFiles := [none, none, none, none], consoleOut := [] }
      = { activeFile := some ("old"), rotatedFiles := [none, none, none, none], consoleOut := [] } :=
  ⟨claim9_below_level_no_effect ("info") LogLevel.debug ("hello") ("2025-01-13T05:00:01.000Z")
      ("production") _ (by decide),
    claim9_below_level_no_effect ("info") LogLevel.debug ("hello") ("2025-01-13T05:00:01.000Z")
      ("development") _ (by decide)⟩

/-- C10: whenever reading the digest file's modification time fails, the
recency check returns false (and, being a total function, raises nothing). -/
theorem claim10_missing_mtime_not_recent :
    ∀ (fileSystem : String → Option Int) (path : String) (now : Int),
      fileSystem path = none → isFileRecent fileSystem path now = false := by
  intro fileSystem path now h
  unfold isFileRecent getFileModificationTime
  rw [h]

/-- Witness for C10: a file system on which every stat fails, discharging the
failure hypothesis. -/
theorem claim10_witness :
    isFileRecent (fun _ => none) ("/var/cache/logwatch/logwatch.txt") 1736744401 = false :=
  claim10_missing_mtime_not_recent (fun _ => none) ("/var/cache/logwatch/logwatch.txt")
    1736744401 rfl

/-- C5: content whose estimated token count is at or below the ceiling passes
through `preprocess` byte-for-byte unchanged, and the reported original and
processed token counts are equal (zero reduction). -/
theorem claim5_preprocess_noop :
    ∀ (content : String) (maxTokens : Nat),
      estimateTokens content ≤ maxTokens →
      (preprocess maxTokens content).1 = content
      ∧ (preprocess maxTokens content).2.originalTokens
          = (preprocess maxTokens content).2.processedTokens := by
  intro content maxTokens h
  unfold preprocess
  by_cases he : jsTrim content = ""
  · rw [if_pos he]
    exact ⟨rfl, rfl⟩
  · rw [if_neg he, if_pos h]
    exact ⟨rfl, rfl⟩

/-- Witness for C5: a small concrete digest within the default ceiling,
discharging the token-bound hypothesis. -/
theorem claim5_witness :
    estimateTokens ("Logwatch summary: no incidents") ≤ 150000
    ∧ (preprocess 150000 ("Logwatch summary: no incidents")).1
        = "Logwatch summary: no incidents"
    ∧ (preprocess 150000 ("Logwatch summary: no incidents")).2.originalTokens
        = (preprocess 150000 ("Logwatch summary: no incidents")).2.processedTokens :=
  ⟨by decide,
    (claim5_preprocess_noop ("Logwatch summary: no incidents") 150000 (by decide)).1,
    (claim5_preprocess_noop ("Logwatch summary: no incidents") 150000 (by decide)).2⟩

/-- The chunk built by accumulating a run of whole lines, each with the
`+ '\n'` the loop appends. -/
def lineConcat : List String → String
  | [] => ""
  | [l] => l ++ "\n"
  | l :: rest => l ++ "\n" ++ lineConcat rest

theorem lineConcat_append_one (ls : List String) (l : String) :
    lineConcat (ls ++ [l]) = lineConcat ls ++ (l ++ "\n") := by
  induction ls with
  | nil => rfl
  | cons x xs ih =>
    cases xs with
    | nil => rfl
    | cons y ys =>
      show x ++ "\n" ++ lineConcat ((y :: ys) ++ [l])
        = (x ++ "\n" ++ lineConcat (y :: ys)) ++ (l ++ "\n")
      simp only [List.cons_append] at ih
      simp [ih, String.append_assoc]

theorem lineConcat_eq_empty_iff (ls : List String) : lineConcat ls = "" ↔ ls = [] := by
  constructor
  · intro h
    cases ls with
    | nil => rfl
    | cons x xs =>
      exfalso
      cases xs with
      | nil =>
        have hlen := congrArg String.length h
        rw [show lineConcat [x] = x ++ "\n" from rfl, String.length_append,
          show ("\n" : String).length = 1 from rfl,
          show ("" : String).length = 0 from rfl] at hlen
        omega
      | cons y ys =>
        have hlen := congrArg String.length h
        rw [show lineConcat (x :: y :: ys) = x ++ "\n" ++ lineConcat (y :: ys) from rfl,
          String.length_append, String.length_append,
          show ("\n" : String).length = 1 from rfl,
          show ("" : String).length = 0 from rfl] at hlen
        omega
  · intro h
    subst h
    rfl

/-- Structure of the splitting loop: starting from an accumulator that is a
concatenation of whole lines, every produced chunk is a concatenation of
consecutive whole lines, and the chunks cover the accumulator plus the
remaining lines exactly once, in order. -/
theorem splitMessageAux_structure (maxLen : Nat) (lines : List String) :
    ∀ curLs : List String,
      ∃ parts : List (List String),
        splitMessageAux maxLen lines (lineConcat curLs) = parts.map lineConcat
        ∧ parts.flatten = curLs ++ lines := by
  induction lines with
  | nil =>
    intro curLs
    by_cases hc : lineConcat curLs = ""
    · have hnil : curLs = [] := (lineConcat_eq_empty_iff curLs).mp hc
      exact ⟨[], by simp [splitMessageAux, hc], by simp [hnil]⟩
    · exact ⟨[curLs], by simp [splitMessageAux, hc], by simp⟩
  | cons line rest ih =>
    intro curLs
    simp only [splitMessageAux]
    by_cases hcond : (lineConcat curLs).length + line.length + 1 > maxLen - 50
    · rw [if_pos hcond]
      by_cases hc : lineConcat curLs = ""
      · have hnil : curLs = [] := (lineConcat_eq_empty_iff curLs).mp hc
        rw [if_pos hc]
        obtain ⟨parts, hp, hj⟩ := ih [line]
        refine ⟨parts, ?_, by simp [hnil, hj]⟩
        have : lineConcat [line] = line ++ "\n" := rfl
        rw [← this, hp]
        simp
      · rw [if_neg hc]
        obtain ⟨parts, hp, hj⟩ := ih [line]
        refine ⟨curLs :: parts, ?_, by simp [hj]⟩
        have : lineConcat [line] = line ++ "\n" := rfl
        rw [← this, hp]
        rfl
    · rw [if_neg hcond]
      obtain ⟨parts, hp, hj⟩ := ih (curLs ++ [line])
      refine ⟨parts, ?_, by simpa using hj⟩
      rw [← lineConcat_append_one, hp]

theorem append_newline_length (s : String) : (s ++ "\n").length = s.length + 1 := by
  rw [String.length_append, show ("\n" : String).length = 1 from rfl]

theorem append_newline_inj (a b : String) (h : a ++ "\n" = b ++ "\n") : a = b := by
  have hd := congrArg String.data h
  rw [String.data_append, String.data_append] at hd
  have hab : a.data = b.data := List.append_cancel_right hd
  cases a
  cases b
  exact congrArg String.mk hab

/-- Chunk-size invariant of the splitting loop: every produced chunk fits the
`maxLen - 50` budget unless it consists of a single line that alone exceeds
the budget (such a line is emitted unsplit). -/
theorem splitMessageAux_chunk_length (maxLen : Nat) (lines : List String) :
    ∀ cur : String,
      (cur.length ≤ maxLen - 50 ∨ ∃ l, cur = l ++ "\n" ∧ maxLen - 50 < l.length + 1) →
      ∀ chunk ∈ splitMessageAux maxLen lines cur,
        chunk.length ≤ maxLen - 50
        ∨ ∃ l, (l ∈ lines ∨ cur = l ++ "\n") ∧ chunk = l ++ "\n"
            ∧ maxLen - 50 < l.length + 1 := by
  induction lines with
  | nil =>
    intro cur hcur chunk hchunk
    simp only [splitMessageAux] at hchunk
    split at hchunk
    · simp at hchunk
    · rw [List.mem_singleton] at hchunk
      subst hchunk
      rcases hcur with h | ⟨l, hl, hlen⟩
      · exact Or.inl h
      · exact Or.inr ⟨l, Or.inr hl, hl, hlen⟩
  | cons line rest ih =>
    intro cur hcur chunk hchunk
    simp only [splitMessageAux] at hchunk
    by_cases hcond : cur.length + line.length + 1 > maxLen - 50
    · rw [if_pos hcond, List.mem_append] at hchunk
      rcases hchunk with hch | hch
      · have hcc : chunk = cur := by
          split at hch
          · simp at hch
          · simpa using hch
        subst hcc
        rcases hcur with h | ⟨l, hl, hlen⟩
        · exact Or.inl h
        · exact Or.inr ⟨l, Or.inr hl, hl, hlen⟩
      · have hpre : (line ++ "\n").length ≤ maxLen - 50
            ∨ ∃ l, line ++ "\n" = l ++ "\n" ∧ maxLen - 50 < l.length + 1 := by
          by_cases hll : line.length + 1 ≤ maxLen - 50
          · left
            rw [append_newline_length]
            exact hll
          · right
            exact ⟨line, rfl, by omega⟩
        rcases ih (line ++ "\n") hpre chunk hch with h | ⟨l, hl, hcl, hlen⟩
        · exact Or.inl h
        · refine Or.inr ⟨l, ?_, hcl, hlen⟩
          rcases hl with h | h
          · exact Or.inl (List.mem_cons_of_mem _ h)
          · have : line = l := append_newline_inj line l h
            exact Or.inl (this ▸ List.mem_cons_self line rest)
    · rw [if_neg hcond] at hchunk
      have hlen2 : (cur ++ (line ++ "\n")).length = cur.length + line.length + 1 := by
        rw [String.length_append, append_newline_length]
        omega
      have hpre : (cur ++ (line ++ "\n")).length ≤ maxLen - 50
          ∨ ∃ l, cur ++ (line ++ "\n") = l ++ "\n" ∧ maxLen - 50 < l.length + 1 :=
        Or.inl (by omega)
      rcases ih (cur ++ (line ++ "\n")) hpre chunk hchunk with h | ⟨l, hl, hcl, hlen⟩
      · exact Or.inl h
      · refine Or.inr ⟨l, ?_, hcl, hlen⟩
        rcases hl with h | h
        · exact Or.inl (List.mem_cons_of_mem _ h)
        · exfalso
          have := congrArg String.length h
          rw [hlen2, append_newline_length] at this
          omega

/-- C6 (amended): for a message longer than 4096 characters, the client
splits it into chunks of whole lines — no line is split across chunks, and
the chunk bodies reproduce the message's lines exactly once in order; each
chunk fits 4096 − 50 characters unless it consists of a single line which by
itself exceeds that budget (such a line becomes an oversized chunk of its
own); part K of N is sent with the prefix "[Part K/N]". -/
theorem claim6_split_round_trip :
    ∀ lines : List String,
      4096 < (composedMessage lines).length →
      (∃ parts : List (List String),
          splitMessage 4096 lines = parts.map lineConcat
          ∧ parts.flatten = lines)
      ∧ (∀ chunk ∈ splitMessage 4096 lines,
          chunk.length ≤ 4096 - 50
          ∨ ∃ l ∈ lines, chunk = l ++ "\n" ∧ 4096 - 50 < l.length + 1)
      ∧ sendSplitMessage 4096 lines
          = (List.range (splitMessage 4096 lines).length).map
              (fun i => "[Part " ++ toString (i + 1) ++ "/"
                ++ toString (splitMessage 4096 lines).length ++ "]\n\n"
                ++ (splitMessage 4096 lines).getD i ("")) := by
  intro lines _
  refine ⟨?_, ?_, rfl⟩
  · obtain ⟨parts, hp, hj⟩ := splitMessageAux_structure 4096 lines []
    exact ⟨parts, hp, by simpa using hj⟩
  · intro chunk hchunk
    have h0 : (("" : String).length ≤ 4096 - 50)
        ∨ ∃ l, ("" : String) = l ++ "\n" ∧ 4096 - 50 < l.length + 1 :=
      Or.inl (by decide)
    rcases splitMessageAux_chunk_length 4096 lines ("") h0 chunk hchunk with h | ⟨l, hl, hcl, hlen⟩
    · exact Or.inl h
    · rcases hl with h | h
      · exact Or.inr ⟨l, h, hcl, hlen⟩
      · exfalso
        have := congrArg String.length h
        rw [append_newline_length] at this
        simp at this

/-- A single 4097-character line (a composed message with no newline at all,
e.g. one very long summary line). -/
def longLine : String := String.mk (List.replicate 4097 'a')

theorem longLine_length : longLine.length = 4097 := by
  show (List.replicate 4097 'a').length = 4097
  exact List.length_replicate 4097 'a'

/-- C6 counterexample: the claim says every chunk of a split message stays
within 4096 − 50 characters; a message that is one 4097-character line is
longer than 4096, is never line-split, and is emitted as a single chunk of
4098 characters, exceeding the 4046-character bound. -/
theorem claim6_counterexample :
    4096 < (composedMessage [longLine]).length
    ∧ splitMessage 4096 [longLine] = [longLine ++ "\n"]
    ∧ ∃ chunk ∈ splitMessage 4096 [longLine], 4096 - 50 < chunk.length := by
  have hc : ("" : String).length + longLine.length + 1 > 4096 - 50 := by
    rw [longLine_length]
    decide
  have hne : ¬ (longLine ++ "\n" = "") := by
    intro h
    have := congrArg String.length h
    rw [append_newline_length, longLine_length] at this
    simp at this
  have hsplit : splitMessage 4096 [longLine] = [longLine ++ "\n"] := by
    unfold splitMessage
    simp only [splitMessageAux]
    rw [if_pos hc]
    simp [hne]
  refine ⟨?_, hsplit, ?_⟩
  · show 4096 < longLine.length
    rw [longLine_length]
    decide
  · refine ⟨longLine ++ "\n", by rw [hsplit]; exact List.mem_singleton.mpr rfl, ?_⟩
    rw [append_newline_length, longLine_length]
    decide

/-- Witness for C6: the theorem applied to the concrete one-line oversized
message, discharging the length hypothesis. -/
theorem claim6_witness :
    4096 < (composedMessage [longLine]).length
    ∧ (∃ parts : List (List String),
        splitMessage 4096 [longLine] = parts.map lineConcat
        ∧ parts.flatten = [longLine]) :=
  ⟨by rw [show composedMessage [longLine] = longLine from rfl, longLine_length]; decide,
    (claim6_split_round_trip [longLine]
      (by rw [show composedMessage [longLine] = longLine from rfl, longLine_length]; decide)).1⟩

theorem compressSection_name (s : Section) : (compressSection s).1.name = s.name := by
  unfold compressSection
  split_ifs
  · rfl
  · dsimp only
    split <;> rfl
  · rfl

theorem compressSection_header (s : Section) : (compressSection s).1.header = s.header := by
  unfold compressSection
  split_ifs
  · rfl
  · dsimp only
    split <;> rfl
  · rfl

/-- The `find` of the reassembly step: when the (name, header) keys are
pairwise distinct, looking an original section up in the processed list
returns exactly that section's processed form. -/
theorem find_processed_of_nodup (sections : List Section)
    (hnd : (sections.map (fun s => (s.name, s.header))).Nodup)
    (orig : Section) (ho : orig ∈ sections) :
    (((sortSectionsByPriority sections).map (fun s => (compressSection s).1)).find?
        (fun p => p.name == orig.name && p.header == orig.header))
      = some ((compressSection orig).1) := by
  have hperm : (sortSectionsByPriority sections).Perm sections :=
    List.perm_insertionSort _ sections
  have hmem : (compressSection orig).1
      ∈ (sortSectionsByPriority sections).map (fun s => (compressSection s).1) :=
    List.mem_map_of_mem _ (hperm.mem_iff.mpr ho)
  have hpred : ((compressSection orig).1.name == orig.name
      && (compressSection orig).1.header == orig.header) = true := by
    simp [compressSection_name, compressSection_header]
  have hsome : (((sortSectionsByPriority sections).map (fun s => (compressSection s).1)).find?
      (fun p => p.name == orig.name && p.header == orig.header)).isSome := by
    rw [List.find?_isSome]
    exact ⟨_, hmem, hpred⟩
  obtain ⟨y, hy⟩ := Option.isSome_iff_exists.mp hsome
  have hyp := List.find?_some hy
  have hym := List.mem_of_find?_eq_some hy
  rw [List.mem_map] at hym
  obtain ⟨z, hz, hzy⟩ := hym
  have hz2 : z ∈ sections := hperm.subset hz
  rw [← hzy] at hyp
  simp only [compressSection_name, compressSection_header, Bool.and_eq_true, beq_iff_eq] at hyp
  have hkey : (fun s => (s.name, s.header)) z = (fun s => (s.name, s.header)) orig := by
    simp [hyp.1, hyp.2]
  have hzo : z = orig := List.inj_on_of_nodup_map hnd hz2 ho hkey
  rw [hy, ← hzy, hzo]

/-- The two sections `parseSections` produces for the digest
`-----\na\n-----\nb`: two generic delimiter sections with the same name
("unknown") and the same header line, but different bodies. -/
def genericSectionA : Section :=
  { name := "unknown", priority := 1, header := "-----",
    content := "-----\na\n", lines := ["-----", "a"] }

/-- Second generic section of the same digest (same name and header,
different content). -/
def genericSectionB : Section :=
  { name := "unknown", priority := 1, header := "-----",
    content := "-----\nb\n", lines := ["-----", "b"] }

/-- C7 counterexample: the claim says the i-th block of the compressed output
is the processed content of the i-th parsed section; on a digest with two
generic delimiter sections sharing name and header, the reassembly `find`
returns the FIRST processed section for both positions, so the second block
is the processed first section, not the processed second section. -/
theorem claim7_counterexample :
    parseSections ("-----\na\n-----\nb") = [genericSectionA, genericSectionB]
    ∧ reassembleSections [genericSectionA, genericSectionB]
        = [(compressSection genericSectionA).1, (compressSection genericSectionA).1]
    ∧ (compressSection genericSectionA).1.content
        ≠ (compressSection genericSectionB).1.content := by
  refine ⟨by decide, by decide, by decide⟩

/-- C7 (amended): when the parsed sections have pairwise distinct
(name, header) pairs, the compressed output is the processed sections in the
original parse order — the i-th blank-line-separated block is the processed
content of the i-th section; with duplicate (name, header) pairs each
position holds the processed content of the FIRST section carrying that
pair. -/
theorem claim7_reassembled_in_original_order :
    ∀ sections : List Section,
      (sections.map (fun s => (s.name, s.header))).Nodup →
      reassembleSections sections = sections.map (fun s => (compressSection s).1)
      ∧ (compressSections sections).1
          = joinWith "\n\n" (sections.map (fun s => (compressSection s).1.content)) := by
  intro sections hnd
  have hmain : reassembleSections sections = sections.map (fun s => (compressSection s).1) := by
    unfold reassembleSections
    apply List.map_congr_left
    intro orig ho
    rw [find_processed_of_nodup sections hnd orig ho]
    rfl
  refine ⟨hmain, ?_⟩
  have h2 : (compressSections sections).1
      = joinWith "\n\n" ((reassembleSections sections).map (fun s => s.content)) := rfl
  rw [h2, hmain, List.map_map]
  rfl

/-- Witness for C7: the theorem applied to a concrete two-section parse with
distinct (name, header) pairs, discharging the distinctness hypothesis. -/
theorem claim7_witness :
    reassembleSections [genericSectionA, { genericSectionB with header := "=====" }]
      = [(compressSection genericSectionA).1,
         (compressSection { genericSectionB with header := "=====" }).1] :=
  (claim7_reassembled_in_original_order
    [genericSectionA, { genericSectionB with header := "=====" }] (by decide)).1

end LogwatchAI
